import Mathlib

/-!
Verification of the mcp-graphiti ingestion-and-search pipeline.

This file is a shallow embedding of the TypeScript sources:
  src/core/graphiti.ts   (ingestion, retrieval, hybrid merge, health check)
  src/drivers/neo4j.ts   (searchNodes with its row-mapping error path, vectorSearch)
  src/llm/index.ts       (extractEntities, extractRelationships error handling)
  src/types/index.ts     (zod input schemas for the search tool)
  src/mcp-server.ts      (the search tool handler: validate, then invoke)

External collaborators (the graph store, the language-model HTTP API and the
embedding HTTP API) are modelled by an explicit environment record: each
fallible external call is a field of the environment holding its outcome, and
every function that can throw in TypeScript returns an Except value here.
JavaScript numbers are modelled as rationals, JavaScript falsy-or-default
idioms (x || d) by explicit helpers, and JavaScript object spreads by
association lists in which a later binding overrides an earlier one.
-/

namespace Graphiti

/-- An attribute value of a JS record field; undef models a field that is
present with value undefined. -/
inductive AttrVal where
  | str (s : String)
  | num (q : ℚ)
  | undef
deriving DecidableEq

/-- A JS object used as an open attribute map, in insertion order. -/
abbrev Attrs := List (String × AttrVal)

/-- JS object property read: the last binding of a key wins (later spread
entries override earlier literal entries). -/
def attrGet (l : Attrs) (k : String) : Option AttrVal :=
  (l.reverse.find? (fun p => decide (p.1 = k))).map Prod.snd

/-- JS (x || d) for an optional string: undefined and the empty string are
falsy. -/
def orStr : Option String → String → String
  | some s, d => if s = "" then d else s
  | none, d => d

/-- JS (x || d) for an optional number: undefined and 0 are falsy. -/
def orNum : Option ℚ → ℚ → ℚ
  | some q, d => if q = 0 then d else q
  | none, d => d

/-- Case-sensitive substring containment, the semantics of the Cypher
CONTAINS operator and of JS String.includes. -/
def strContains (s pat : String) : Bool :=
  decide (pat.toList <:+: s.toList)

/-- JS String.toLowerCase, character by character. -/
def jsToLower (s : String) : String :=
  String.mk (s.toList.map Char.toLower)

/-- A graph node as persisted by the pipeline (src/types/index.ts NodeSchema;
the optional invalid_at field is never set by the pipeline and is omitted). -/
structure Node where
  id : String
  type : String
  name : String
  summary : String
  created_at : String
  valid_at : String
  attributes : Attrs
deriving DecidableEq

/-- A graph edge as persisted by the pipeline (src/types/index.ts
EdgeSchema). -/
structure Edge where
  id : String
  type : String
  source_id : String
  target_id : String
  name : String
  summary : String
  created_at : String
  valid_at : String
  attributes : Attrs
deriving DecidableEq

/-- An input episode (src/types/index.ts Episode). -/
structure Episode where
  name : String
  content : String
  source_description : Option String
  source : Option String
  reference_time : Option String
deriving DecidableEq

/-- A loosely-typed entity candidate as returned by the extractor. -/
structure EntityCand where
  name : String
  type : Option String
  description : Option String
  attributes : Attrs
deriving DecidableEq

/-- A loosely-typed relationship candidate as returned by the extractor. -/
structure RelCand where
  source_entity : String
  target_entity : String
  relationship_type : Option String
  description : Option String
  confidence : Option ℚ
  attributes : Attrs
deriving DecidableEq

/-- Graphiti.findNodeIdByName (graphiti.ts 128-131): first node of the batch
whose name matches case-insensitively, empty string when none does. -/
def findNodeIdByName (nodes : List Node) (name : String) : String :=
  match nodes.find? (fun n => decide (jsToLower n.name = jsToLower name)) with
  | some n => n.id
  | none => ""

/-- Node materialization for one entity candidate (graphiti.ts 77-90).
now stands for formatISO(new Date()) and nid for the fresh uuid. -/
def mkNode (ep : Episode) (episodeSummary : String) (now : String)
    (nid : String) (ent : EntityCand) : Node :=
  { id := nid
    type := orStr ent.type "entity"
    name := ent.name
    summary := orStr ent.description ""
    created_at := now
    valid_at := orStr ep.reference_time now
    attributes :=
      [("source_episode", AttrVal.str ep.name),
       ("source_description",
         match ep.source_description with
         | some s => AttrVal.str s
         | none => AttrVal.undef),
       ("episode_summary", AttrVal.str episodeSummary)] ++ ent.attributes }

/-- Edge materialization for one relationship candidate (graphiti.ts 93-107).
now stands for formatISO(new Date()) and eid for the fresh uuid. -/
def mkEdge (nodes : List Node) (ep : Episode) (now : String)
    (eid : String) (rel : RelCand) : Edge :=
  { id := eid
    type := orStr rel.relationship_type "related_to"
    source_id := findNodeIdByName nodes rel.source_entity
    target_id := findNodeIdByName nodes rel.target_entity
    name := orStr rel.relationship_type "related_to"
    summary := orStr rel.description ""
    created_at := now
    valid_at := orStr ep.reference_time now
    attributes :=
      [("source_episode", AttrVal.str ep.name),
       ("confidence", AttrVal.num (orNum rel.confidence (4/5)))] ++
      rel.attributes }

/-- The validity filter applied before edge persistence (graphiti.ts
110-112). -/
def validEdgeFilter (e : Edge) : Bool :=
  decide (e.source_id ≠ "") && decide (e.target_id ≠ "") &&
    decide (e.source_id ≠ e.target_id)

/-- The batch of edges an episode persists: one constructed edge per
relationship candidate (paired with its fresh id), then the validity
filter (graphiti.ts 93-112). -/
def processEpisodeEdges (nodes : List Node) (ep : Episode) (now : String)
    (eids : List String) (rels : List RelCand) : List Edge :=
  ((rels.zip eids).map (fun p => mkEdge nodes ep now p.2 p.1)).filter
    validEdgeFilter

/-- Graphiti.addEpisodes (graphiti.ts 45-58): process episodes one at a time
in input order; a failure is rethrown, which aborts the loop. The first
component is the trace of episode names whose processing was started, the
second the overall outcome. proc gives the outcome of processEpisode. -/
def addEpisodes (proc : Episode → Except Unit Unit) :
    List Episode → List String × Except Unit Unit
  | [] => ([], Except.ok ())
  | ep :: rest =>
    match proc ep with
    | Except.error e => ([ep.name], Except.error e)
    | Except.ok _ =>
      let r := addEpisodes proc rest
      (ep.name :: r.1, r.2)

/-- The JS regular expression match of a bracketed segment used by the
extractor: leftmost-greedy, so the match runs from the first opening square
bracket to the last closing square bracket, provided the latter comes
strictly after the former. -/
def findJsonArray (s : String) : Option String :=
  let cs := s.toList
  match cs.findIdx? (· = '['), (cs.reverse.findIdx? (· = ']')).map
      (fun i => cs.length - 1 - i) with
  | some i, some j =>
    if i < j then some (String.mk ((cs.drop i).take (j - i + 1))) else none
  | _, _ => none

/-- OpenAICompatibleClient.extractEntities (llm source 114-136).
llmResponse is the outcome of the generateText call (an error models a
transport failure of the HTTP request); parseJson models JSON.parse on the
matched bracketed segment, none meaning the parse throws. The surrounding
try-catch turns every failure into an empty list. -/
def extractEntities (parseJson : String → Option (List EntityCand))
    (llmResponse : Except Unit String) : Except Unit (List EntityCand) :=
  match llmResponse with
  | Except.error _ => Except.ok []
  | Except.ok response =>
    match findJsonArray response with
    | some j =>
      match parseJson j with
      | some v => Except.ok v
      | none => Except.ok []
    | none => Except.ok []

/-- OpenAICompatibleClient.extractRelationships (llm source 138-160): same
control flow as extractEntities, with a relationship-candidate parse. -/
def extractRelationships (parseJson : String → Option (List RelCand))
    (llmResponse : Except Unit String) : Except Unit (List RelCand) :=
  match llmResponse with
  | Except.error _ => Except.ok []
  | Except.ok response =>
    match findJsonArray response with
    | some j =>
      match parseJson j with
      | some v => Except.ok v
      | none => Except.ok []
    | none => Except.ok []

/-- The external world a retrieval or health-check call runs against: the
store contents and the outcome of each fallible external call. -/
structure Env where
  db : List Node
  searchFails : String → Bool
  embedResult : Except Unit (List ℚ)
  dbConnectable : Bool
  llmResult : Except Unit String

/-- A row returned by Neo4jDriver.searchNodes: the node properties together
with the score property injected by the query (none models the property
being absent after it is stripped). -/
abbrev NodeRow := Node × Option ℚ

/-- Neo4jDriver.searchNodes (neo4j.ts 98-116): the Cypher query selects the
nodes whose name contains the query string, capped by LIMIT, each row keyed
under the alias n with a constant score 1.0. The mapping on line 108 however
reads record.node, which is undefined because the row is keyed under n, so
mapping any nonempty result set throws a TypeError that the surrounding
catch rethrows. The call therefore succeeds only when the result set is
empty, returning the empty list; a store failure propagates as well. -/
def searchNodes (env : Env) (query : String) (limit : ℕ) :
    Except Unit (List NodeRow) :=
  if env.searchFails query then Except.error ()
  else
    match (env.db.filter (fun n => strContains n.name query)).take limit with
    | [] => Except.ok []
    | _ :: _ => Except.error ()

/-- Neo4jDriver.vectorSearch (neo4j.ts 199-209): the embedding argument is
ignored; the driver runs searchNodes with the empty-string query and pairs
every row with the default similarity score 0.5. -/
def vectorSearch (env : Env) (queryEmbedding : List ℚ) (limit : ℕ) :
    Except Unit (List (NodeRow × ℚ)) :=
  (searchNodes env "" limit).map (fun rows => rows.map (fun n => (n, 1/2)))

/-- The rendered content line shared by both search paths. -/
def renderContent (n : Node) : String :=
  n.name ++ " (" ++ n.type ++ "): " ++
    (if n.summary = "" then "No description" else n.summary)

/-- A search result (src/types/index.ts SearchResult). The node component is
a row that may still carry the score property injected by the store query. -/
structure SearchResult where
  node : Option NodeRow
  edge : Option Edge
  score : ℚ
  content : String
deriving DecidableEq

/-- Graphiti.keywordSearch (graphiti.ts 184-204): searchNodes, score property
stripped from the node and used (with default 1.0) as the result score; any
failure is caught and returns the empty list. -/
def keywordSearch (env : Env) (query : String) (numResults : ℕ) :
    Except Unit (List SearchResult) :=
  match searchNodes env query numResults with
  | Except.error _ => Except.ok []
  | Except.ok rows =>
    Except.ok
      (rows.map (fun n =>
        { node := some (n.1, none)
          edge := none
          score := orNum n.2 1
          content := renderContent n.1 }))

/-- The try block of Graphiti.semanticSearch (graphiti.ts 164-176): embed
the query, then run the vector search; the first failure propagates to the
catch handler. -/
def semanticTryBlock (env : Env) (numResults : ℕ) :
    Except Unit (List (NodeRow × ℚ)) :=
  match env.embedResult with
  | Except.error e => Except.error e
  | Except.ok queryEmbedding => vectorSearch env queryEmbedding numResults

/-- Graphiti.semanticSearch (graphiti.ts 163-182): embed the query, run the
vector search; any failure of either step is caught and falls back to
keywordSearch. -/
def semanticSearch (env : Env) (query : String) (numResults : ℕ) :
    Except Unit (List SearchResult) :=
  match semanticTryBlock env numResults with
  | Except.error _ => keywordSearch env query numResults
  | Except.ok results =>
    Except.ok
      (results.map (fun r =>
        { node := some r.1
          edge := none
          score := r.2
          content := renderContent r.1.1 }))

/-- The merge key of a result (graphiti.ts 215 and 223): the node id when
present and truthy, else the edge id when present and truthy, else the empty
string. -/
def resultKey (r : SearchResult) : String :=
  let nid := match r.node with
    | some n => n.1.id
    | none => ""
  if nid ≠ "" then nid
  else
    match r.edge with
    | some e => e.id
    | none => ""

/-- JS Map.set on an association list: replace in place when the key exists,
append otherwise (a JS Map keeps the original insertion position). -/
def setEntry : List (String × SearchResult) → String → SearchResult →
    List (String × SearchResult)
  | [], k, v => [(k, v)]
  | (k', v') :: m, k, v =>
    if k' = k then (k', v) :: m else (k', v') :: setEntry m k v

/-- JS Map.get on an association list. -/
def getEntry (m : List (String × SearchResult)) (k : String) :
    Option SearchResult :=
  (m.find? (fun p => decide (p.1 = k))).map Prod.snd

/-- The in-place mutation existing.score += d of the merge loop. -/
def bumpScore : List (String × SearchResult) → String → ℚ →
    List (String × SearchResult)
  | [], _, _ => []
  | (k', v') :: m, k, d =>
    if k' = k then (k', { v' with score := v'.score + d }) :: m
    else (k', v') :: bumpScore m k d

/-- One iteration of the semantic pass of combineSearchResults (graphiti.ts
214-219): skip results with an empty key, insert the result with its score
scaled by 1.2. -/
def semStep (m : List (String × SearchResult)) (r : SearchResult) :
    List (String × SearchResult) :=
  let k := resultKey r
  if k = "" then m else setEntry m k { r with score := r.score * (6/5) }

/-- One iteration of the keyword pass of combineSearchResults (graphiti.ts
222-232): skip results with an empty key; when the key already exists add
0.8 times the keyword score to the existing entry, otherwise insert the
keyword result unchanged. -/
def kwStep (m : List (String × SearchResult)) (r : SearchResult) :
    List (String × SearchResult) :=
  let k := resultKey r
  if k = "" then m
  else
    match getEntry m k with
    | some _ => bumpScore m k (r.score * (4/5))
    | none => m ++ [(k, r)]

/-- The merged map built by combineSearchResults before sorting (the local
Map named combined, graphiti.ts 211-232). -/
def combinedMap (semanticResults keywordResults : List SearchResult) :
    List (String × SearchResult) :=
  keywordResults.foldl kwStep (semanticResults.foldl semStep [])

/-- The comparator (a, b) => b.score - a.score used on line 236: a may come
before b exactly when its score is at least as large; equal scores keep the
insertion order (the JS sort is stable). -/
def scoreDesc (a b : SearchResult) : Bool :=
  decide (b.score ≤ a.score)

/-- Graphiti.combineSearchResults (graphiti.ts 206-238): merge both result
lists keyed by identity, sort by descending score, truncate. -/
def combineSearchResults (semanticResults keywordResults : List SearchResult)
    (maxResults : ℕ) : List SearchResult :=
  (((combinedMap semanticResults keywordResults).map Prod.snd).mergeSort
    scoreDesc).take maxResults

/-- Graphiti.search (graphiti.ts 133-161): dispatch on the search type; an
unsupported type throws before any external call. -/
def search (env : Env) (query : String) (numResults : ℕ)
    (searchType : String) : Except Unit (List SearchResult) :=
  if searchType = "semantic" then semanticSearch env query numResults
  else if searchType = "keyword" then keywordSearch env query numResults
  else if searchType = "hybrid" then
    match semanticSearch env query numResults with
    | Except.error e => Except.error e
    | Except.ok semanticResults =>
      match keywordSearch env query numResults with
      | Except.error e => Except.error e
      | Except.ok keywordResults =>
        Except.ok
          (combineSearchResults semanticResults keywordResults numResults)
  else Except.error ()

/-- The record returned by Graphiti.healthCheck. -/
structure HealthStatus where
  database : Bool
  llm : Bool
  embedding : Bool
deriving DecidableEq

/-- Neo4jDriver.healthCheck (neo4j.ts 211-219): verifyConnectivity inside a
try-catch, so the probe itself never throws. -/
def dbHealthCheck (env : Env) : Except Unit Bool :=
  Except.ok env.dbConnectable

/-- BigModelEmbedder.testConnection (bigmodel.ts): generateEmbedding on a
test input inside a try-catch, so the probe itself never throws. -/
def testConnection (env : Env) : Except Unit Bool :=
  Except.ok
    (match env.embedResult with
     | Except.ok _ => true
     | Except.error _ => false)

/-- Graphiti.healthCheck (graphiti.ts 272-301): three probes, the
language-model probe guarded by its own try-catch and checked for the OK
substring; the outer catch reports all false. -/
def healthCheck (env : Env) : Except Unit HealthStatus :=
  match dbHealthCheck env with
  | Except.error _ => Except.ok ⟨false, false, false⟩
  | Except.ok databaseHealth =>
    let llmHealth :=
      match env.llmResult with
      | Except.error _ => false
      | Except.ok response => strContains response "OK"
    match testConnection env with
    | Except.error _ => Except.ok ⟨false, false, false⟩
    | Except.ok embeddingHealth =>
      Except.ok ⟨databaseHealth, llmHealth, embeddingHealth⟩

/-- The raw JSON argument object of the search tool: each field may be
absent. A present numeric field carries an arbitrary JSON number. -/
structure RawSearchInput where
  query : Option String
  num_results : Option ℚ
  search_type : Option String
deriving DecidableEq

/-- The validated search input (src/types/index.ts SearchInputSchema). -/
structure SearchInput where
  query : String
  num_results : ℕ
  search_type : String
deriving DecidableEq

/-- The three search types accepted by the zod enum. -/
def validSearchTypes : List String := ["semantic", "keyword", "hybrid"]

/-- SearchInputSchema.parse (src/types/index.ts 50-55): query must be a
present string; num_results defaults to 10 and otherwise must be an integer
between 1 and 100; search_type defaults to hybrid and otherwise must be one
of the three enum values. Any violation throws. -/
def parseSearchInput (raw : RawSearchInput) : Except Unit SearchInput :=
  match raw.query with
  | none => Except.error ()
  | some q =>
    match raw.num_results with
    | none =>
      match raw.search_type with
      | none => Except.ok ⟨q, 10, "hybrid"⟩
      | some st =>
        if st ∈ validSearchTypes then Except.ok ⟨q, 10, st⟩
        else Except.error ()
    | some nq =>
      if nq.den = 1 ∧ 1 ≤ nq ∧ nq ≤ 100 then
        match raw.search_type with
        | none => Except.ok ⟨q, nq.num.toNat, "hybrid"⟩
        | some st =>
          if st ∈ validSearchTypes then Except.ok ⟨q, nq.num.toNat, st⟩
          else Except.error ()
      else Except.error ()

/-- The search tool handler (mcp-server.ts 133-139): validate the arguments,
then invoke the pipeline. The first component records the pipeline call that
was made, none meaning the pipeline was never invoked. -/
def handleSearchTool (env : Env) (raw : RawSearchInput) :
    Option SearchInput × Except Unit (List SearchResult) :=
  match parseSearchInput raw with
  | Except.error e => (none, Except.error e)
  | Except.ok inp =>
    (some inp, search env inp.query inp.num_results inp.search_type)

/-! ### Concrete fixtures used by witnesses and counterexamples -/

/-- A concrete stored node. -/
def nodeA : Node := ⟨"a", "person", "Alpha", "", "t0", "t0", []⟩

/-- A concrete semantic search result for nodeA with score one half. -/
def semA : SearchResult := ⟨some (nodeA, some 1), none, 1/2, "c"⟩

/-- A concrete keyword search result for nodeA with score one. -/
def kwA : SearchResult := ⟨some (nodeA, none), none, 1, "c"⟩

/-- An environment with one stored node and all external calls succeeding. -/
def envA : Env := ⟨[nodeA], fun _ => false, Except.ok [], true, Except.ok "OK"⟩

/-- An environment whose embedding call fails. -/
def envE : Env := ⟨[], fun _ => false, Except.error (), true, Except.ok "OK"⟩

/-- An environment whose language-model call fails. -/
def envH : Env := ⟨[], fun _ => false, Except.ok [], true, Except.error ()⟩

/-- A concrete episode. -/
def ep0 : Episode := ⟨"ep", "some content", none, none, none⟩

/-- A concrete extracted node batch of one node. -/
def nodeJohn : Node := ⟨"id1", "person", "John Doe", "", "t0", "t0", []⟩

/-- A relationship candidate whose source name matches no extracted
entity. -/
def relBad : RelCand := ⟨"Ghost", "John Doe", none, none, none, []⟩

/-- A relationship candidate with no confidence field but an extractor
attribute named confidence. -/
def relOverride : RelCand :=
  ⟨"a", "b", none, none, none, [("confidence", AttrVal.num (3/10))]⟩

/-- An episode whose processing succeeds under proc0. -/
def epGood : Episode := ⟨"good", "c", none, none, none⟩

/-- An episode whose processing fails under proc0. -/
def epBad : Episode := ⟨"bad", "c", none, none, none⟩

/-- A processing outcome that fails exactly on the episode named bad. -/
def proc0 (e : Episode) : Except Unit Unit :=
  if e.name = "bad" then Except.error () else Except.ok ()

/-- A raw search input with an out-of-range result count. -/
def rawBad : RawSearchInput := ⟨some "q", some 200, some "keyword"⟩

/-! ### Association-map lemmas for the hybrid merge -/

theorem getEntry_nil (k : String) : getEntry [] k = none := rfl

theorem getEntry_cons (k' : String) (v' : SearchResult)
    (m : List (String × SearchResult)) (k : String) :
    getEntry ((k', v') :: m) k = if k' = k then some v' else getEntry m k := by
  by_cases h : k' = k <;> simp [getEntry, List.find?_cons, h]

theorem getEntry_setEntry_self (m : List (String × SearchResult))
    (k : String) (v : SearchResult) :
    getEntry (setEntry m k v) k = some v := by
  induction m with
  | nil => simp [setEntry, getEntry_cons]
  | cons p m ih =>
    obtain ⟨k₀, v₀⟩ := p
    by_cases h : k₀ = k
    · simp [setEntry, h, getEntry_cons]
    · simp [setEntry, h, getEntry_cons, ih]

theorem getEntry_setEntry_ne (m : List (String × SearchResult))
    (k : String) (v : SearchResult) (k' : String) (h : k ≠ k') :
    getEntry (setEntry m k v) k' = getEntry m k' := by
  induction m with
  | nil => simp [setEntry, getEntry_cons, getEntry_nil, h]
  | cons p m ih =>
    obtain ⟨k₀, v₀⟩ := p
    by_cases h0 : k₀ = k
    · subst h0; simp [setEntry, getEntry_cons, h]
    · simp [setEntry, h0, getEntry_cons, ih]

theorem getEntry_bumpScore_self (m : List (String × SearchResult))
    (k : String) (d : ℚ) :
    getEntry (bumpScore m k d) k =
      (getEntry m k).map (fun v => { v with score := v.score + d }) := by
  induction m with
  | nil => simp [bumpScore, getEntry_nil]
  | cons p m ih =>
    obtain ⟨k₀, v₀⟩ := p
    by_cases h : k₀ = k
    · simp [bumpScore, h, getEntry_cons]
    · simp [bumpScore, h, getEntry_cons, ih]

theorem getEntry_bumpScore_ne (m : List (String × SearchResult))
    (k : String) (d : ℚ) (k' : String) (h : k ≠ k') :
    getEntry (bumpScore m k d) k' = getEntry m k' := by
  induction m with
  | nil => simp [bumpScore]
  | cons p m ih =>
    obtain ⟨k₀, v₀⟩ := p
    by_cases h0 : k₀ = k
    · subst h0; simp [bumpScore, getEntry_cons, h]
    · simp [bumpScore, h0, getEntry_cons, ih]

theorem getEntry_append (m₁ m₂ : List (String × SearchResult)) (k : String) :
    getEntry (m₁ ++ m₂) k =
      match getEntry m₁ k with
      | some v => some v
      | none => getEntry m₂ k := by
  induction m₁ with
  | nil => simp [getEntry_nil]
  | cons p m ih =>
    obtain ⟨k₀, v₀⟩ := p
    by_cases h : k₀ = k
    · simp [getEntry_cons, h]
    · simp [getEntry_cons, h, ih]

theorem getEntry_semStep_ne (m : List (String × SearchResult))
    (r : SearchResult) (k : String) (h : resultKey r ≠ k) :
    getEntry (semStep m r) k = getEntry m k := by
  unfold semStep
  by_cases h0 : resultKey r = ""
  · simp [h0]
  · simp [h0, getEntry_setEntry_ne _ _ _ _ h]

theorem getEntry_semStep_self (m : List (String × SearchResult))
    (r : SearchResult) (h : resultKey r ≠ "") :
    getEntry (semStep m r) (resultKey r) =
      some { r with score := r.score * (6/5) } := by
  unfold semStep
  simp [h, getEntry_setEntry_self]

theorem getEntry_kwStep_ne (m : List (String × SearchResult))
    (r : SearchResult) (k : String) (h : resultKey r ≠ k) :
    getEntry (kwStep m r) k = getEntry m k := by
  unfold kwStep
  by_cases h0 : resultKey r = ""
  · simp [h0]
  · simp only [h0, if_false]
    cases hg : getEntry m (resultKey r) with
    | some v => simp [getEntry_bumpScore_ne _ _ _ _ h]
    | none =>
      rw [getEntry_append]
      cases hgk : getEntry m k <;> simp [getEntry_cons, h, getEntry_nil]

theorem getEntry_kwStep_self (m : List (String × SearchResult))
    (r : SearchResult) (h : resultKey r ≠ "") :
    getEntry (kwStep m r) (resultKey r) =
      match getEntry m (resultKey r) with
      | some v => some { v with score := v.score + r.score * (4/5) }
      | none => some r := by
  unfold kwStep
  simp only [h, if_false]
  cases hg : getEntry m (resultKey r) with
  | some v => simp [getEntry_bumpScore_self, hg]
  | none => simp [getEntry_append, getEntry_cons, hg]

theorem semFold_notmem (l : List SearchResult) (k : String)
    (h : ∀ r ∈ l, resultKey r ≠ k) (m : List (String × SearchResult)) :
    getEntry (l.foldl semStep m) k = getEntry m k := by
  induction l generalizing m with
  | nil => rfl
  | cons r l ih =>
    rw [List.foldl_cons, ih (fun x hx => h x (List.mem_cons_of_mem _ hx)),
      getEntry_semStep_ne _ _ _ (h r (List.mem_cons_self _ _))]

theorem kwFold_notmem (l : List SearchResult) (k : String)
    (h : ∀ r ∈ l, resultKey r ≠ k) (m : List (String × SearchResult)) :
    getEntry (l.foldl kwStep m) k = getEntry m k := by
  induction l generalizing m with
  | nil => rfl
  | cons r l ih =>
    rw [List.foldl_cons, ih (fun x hx => h x (List.mem_cons_of_mem _ hx)),
      getEntry_kwStep_ne _ _ _ (h r (List.mem_cons_self _ _))]

theorem semFold_getEntry (l : List SearchResult) (k : String) (hk : k ≠ "")
    (hnd : (l.map resultKey).Nodup) (m : List (String × SearchResult)) :
    getEntry (l.foldl semStep m) k =
      match l.find? (fun r => decide (resultKey r = k)) with
      | some r => some { r with score := r.score * (6/5) }
      | none => getEntry m k := by
  induction l generalizing m with
  | nil => rfl
  | cons r l ih =>
    rw [List.map_cons, List.nodup_cons] at hnd
    obtain ⟨hnotin, hnd'⟩ := hnd
    rw [List.foldl_cons]
    by_cases h0 : resultKey r = k
    · have htail : ∀ x ∈ l, resultKey x ≠ k := by
        intro x hx hc
        exact hnotin (h0 ▸ hc ▸ List.mem_map_of_mem resultKey hx)
      rw [semFold_notmem l k htail]
      have : getEntry (semStep m r) k =
          some { r with score := r.score * (6/5) } := by
        rw [← h0]
        exact getEntry_semStep_self m r (h0 ▸ hk)
      simp [List.find?_cons, h0, this]
    · rw [ih hnd' (semStep m r), getEntry_semStep_ne _ _ _ h0]
      simp [List.find?_cons, h0]

theorem kwFold_getEntry (l : List SearchResult) (k : String) (hk : k ≠ "")
    (hnd : (l.map resultKey).Nodup) (m : List (String × SearchResult)) :
    getEntry (l.foldl kwStep m) k =
      match l.find? (fun r => decide (resultKey r = k)) with
      | some r =>
        match getEntry m k with
        | some v => some { v with score := v.score + r.score * (4/5) }
        | none => some r
      | none => getEntry m k := by
  induction l generalizing m with
  | nil => rfl
  | cons r l ih =>
    rw [List.map_cons, List.nodup_cons] at hnd
    obtain ⟨hnotin, hnd'⟩ := hnd
    rw [List.foldl_cons]
    by_cases h0 : resultKey r = k
    · have htail : ∀ x ∈ l, resultKey x ≠ k := by
        intro x hx hc
        exact hnotin (h0 ▸ hc ▸ List.mem_map_of_mem resultKey hx)
      rw [kwFold_notmem l k htail]
      have : getEntry (kwStep m r) k =
          match getEntry m k with
          | some v => some { v with score := v.score + r.score * (4/5) }
          | none => some r := by
        rw [← h0]
        exact getEntry_kwStep_self m r (h0 ▸ hk)
      simp [List.find?_cons, h0, this]
    · rw [ih hnd' (kwStep m r), getEntry_kwStep_ne _ _ _ h0]
      simp [List.find?_cons, h0]

theorem combinedMap_getEntry (semanticResults keywordResults : List SearchResult)
    (k : String) (hk : k ≠ "")
    (hs : (semanticResults.map resultKey).Nodup)
    (hw : (keywordResults.map resultKey).Nodup) :
    getEntry (combinedMap semanticResults keywordResults) k =
      match semanticResults.find? (fun r => decide (resultKey r = k)),
            keywordResults.find? (fun r => decide (resultKey r = k)) with
      | some rs, some rk =>
        some { rs with score := rs.score * (6/5) + rk.score * (4/5) }
      | some rs, none => some { rs with score := rs.score * (6/5) }
      | none, some rk => some rk
      | none, none => none := by
  unfold combinedMap
  rw [kwFold_getEntry _ _ hk hw, semFold_getEntry _ _ hk hs, getEntry_nil]
  cases semanticResults.find? (fun r => decide (resultKey r = k)) <;>
    cases keywordResults.find? (fun r => decide (resultKey r = k)) <;> rfl

theorem mem_combineSearchResults_subset (s w : List SearchResult) (n : ℕ)
    (r : SearchResult) (h : r ∈ combineSearchResults s w n) :
    r ∈ (combinedMap s w).map Prod.snd := by
  unfold combineSearchResults at h
  exact (List.mergeSort_perm ((combinedMap s w).map Prod.snd) scoreDesc).subset
    ((List.take_sublist _ _).subset h)

/-- C1 (corrected): in the hybrid merge, an item found by both sub-searches
gets score semantic times 1.2 plus keyword times 0.8, and an item found only
by semantic search gets semantic times 1.2, as the claim states; but an item
found only by keyword search keeps its keyword score unscaled, because the
merge loop inserts a fresh keyword entry without the 0.8 factor. Stated for
sub-search result lists with pairwise-distinct identities, for a nonempty
identity key. Every entry of the final truncated result list comes from this
merged map. -/
theorem hybrid_merge_score_characterization
    (semanticResults keywordResults : List SearchResult) (k : String)
    (hk : k ≠ "")
    (hs : (semanticResults.map resultKey).Nodup)
    (hw : (keywordResults.map resultKey).Nodup) :
    ((getEntry (combinedMap semanticResults keywordResults) k).map
        SearchResult.score) =
      (match semanticResults.find? (fun r => decide (resultKey r = k)),
             keywordResults.find? (fun r => decide (resultKey r = k)) with
       | some rs, some rk => some (rs.score * (6/5) + rk.score * (4/5))
       | some rs, none => some (rs.score * (6/5))
       | none, some rk => some rk.score
       | none, none => none) ∧
    (∀ n r, r ∈ combineSearchResults semanticResults keywordResults n →
      r ∈ (combinedMap semanticResults keywordResults).map Prod.snd) := by
  constructor
  · rw [combinedMap_getEntry _ _ _ hk hs hw]
    cases semanticResults.find? (fun r => decide (resultKey r = k)) <;>
      cases keywordResults.find? (fun r => decide (resultKey r = k)) <;> rfl
  · intro n r hr
    exact mem_combineSearchResults_subset _ _ _ _ hr

/-- Witness for C1: with one semantic result of score one half and one
keyword result of score one sharing the identity a, the merged entry carries
score one half times 1.2 plus one times 0.8. -/
theorem hybrid_merge_score_characterization_witness :
    ((getEntry (combinedMap [semA] [kwA]) "a").map SearchResult.score) =
      some ((1/2 : ℚ) * (6/5) + 1 * (4/5)) := by
  have h := (hybrid_merge_score_characterization [semA] [kwA] "a"
    (by decide) (by decide) (by decide)).1
  rw [h]
  simp [List.find?, resultKey, semA, kwA, nodeA]

/-- Counterexample for C1 as frozen: an item found only by keyword search
keeps its unscaled score. With a single keyword result of score one and no
semantic results, the merged output carries score one, and one is not one
times 0.8. -/
theorem hybrid_keyword_only_score_cex :
    (combineSearchResults [] [kwA] 10).map SearchResult.score = [1] ∧
      ¬ ((1 : ℚ) = 1 * (4/5)) := by
  constructor
  · simp [combineSearchResults, combinedMap, kwStep, semStep, getEntry,
      resultKey, kwA, nodeA]
  · norm_num

/-- C2 (corrected): entity and relationship extraction return an empty list
when the response is present but unparseable (no bracketed segment, or the
JSON parse throws), as the claim states; but a hard transport failure of the
language-model call is also caught by the same try-catch and yields an empty
list instead of propagating. Extraction never returns an error. -/
theorem extraction_error_swallowed
    (pe : String → Option (List EntityCand))
    (pr : String → Option (List RelCand))
    (resp : Except Unit String) :
    (extractEntities pe resp).isOk = true ∧
    (extractRelationships pr resp).isOk = true ∧
    (∀ e, resp = Except.error e →
      extractEntities pe resp = Except.ok [] ∧
      extractRelationships pr resp = Except.ok []) ∧
    (∀ s, resp = Except.ok s → findJsonArray s = none →
      extractEntities pe resp = Except.ok [] ∧
      extractRelationships pr resp = Except.ok []) ∧
    (∀ s j, resp = Except.ok s → findJsonArray s = some j → pe j = none →
      extractEntities pe resp = Except.ok []) ∧
    (∀ s j, resp = Except.ok s → findJsonArray s = some j → pr j = none →
      extractRelationships pr resp = Except.ok []) := by
  refine ⟨?_, ?_, ?_, ?_, ?_, ?_⟩
  · cases resp with
    | error e => rfl
    | ok s =>
      simp only [extractEntities]
      cases hj : findJsonArray s with
      | none => simp [Except.isOk, Except.toBool]
      | some j =>
        cases hpe : pe j <;> simp [hpe, Except.isOk, Except.toBool]
  · cases resp with
    | error e => rfl
    | ok s =>
      simp only [extractRelationships]
      cases hj : findJsonArray s with
      | none => simp [Except.isOk, Except.toBool]
      | some j =>
        cases hpr : pr j <;> simp [hpr, Except.isOk, Except.toBool]
  · rintro e rfl
    exact ⟨rfl, rfl⟩
  · rintro s rfl hj
    exact ⟨by simp [extractEntities, hj], by simp [extractRelationships, hj]⟩
  · rintro s j rfl hj hpe
    simp [extractEntities, hj, hpe]
  · rintro s j rfl hj hpr
    simp [extractRelationships, hj, hpr]

/-- Witness for C2: a present but bracket-free response yields the empty
entity list. -/
theorem extraction_error_swallowed_witness :
    extractEntities (fun _ => none) (Except.ok "no json here") =
      Except.ok [] := by
  exact ((extraction_error_swallowed (fun _ => none) (fun _ => none)
    (Except.ok "no json here")).2.2.2.1 "no json here" rfl (by decide)).1

/-- Counterexample for C2 as frozen: a transport failure of the
language-model call does not propagate; both extractors swallow it and
return the empty list. -/
theorem extraction_transport_cex :
    extractEntities (fun _ => none) (Except.error ()) = Except.ok [] ∧
    extractRelationships (fun _ => none) (Except.error ()) = Except.ok [] ∧
    extractEntities (fun _ => none) (Except.error ()) ≠
      Except.error () := by
  refine ⟨rfl, rfl, ?_⟩
  simp [extractEntities]

theorem searchNodes_ok_nil (env : Env) (q : String) (n : ℕ)
    (rows : List NodeRow) (h : searchNodes env q n = Except.ok rows) :
    rows = [] := by
  unfold searchNodes at h
  by_cases hf : env.searchFails q
  · rw [if_pos hf] at h
    exact Except.noConfusion h
  · rw [if_neg hf] at h
    cases hm : (env.db.filter (fun x => strContains x.name q)).take n with
    | nil =>
      rw [hm] at h
      exact (Except.ok.inj h).symm
    | cons a l =>
      rw [hm] at h
      exact Except.noConfusion h

theorem vectorSearch_ok_nil (env : Env) (emb : List ℚ) (n : ℕ)
    (res : List (NodeRow × ℚ)) (h : vectorSearch env emb n = Except.ok res) :
    res = [] := by
  unfold vectorSearch at h
  cases hs : searchNodes env "" n with
  | error e =>
    rw [hs] at h
    exact Except.noConfusion h
  | ok rows =>
    rw [hs, searchNodes_ok_nil env "" n rows hs] at h
    simp only [Except.map, List.map_nil, Except.ok.injEq] at h
    exact h.symm

theorem keywordSearch_eq_nil (env : Env) (q : String) (n : ℕ) :
    keywordSearch env q n = Except.ok [] := by
  unfold keywordSearch
  cases hs : searchNodes env q n with
  | error e => rfl
  | ok rows =>
    rw [searchNodes_ok_nil env q n rows hs]
    rfl

theorem semanticSearch_eq_nil (env : Env) (q : String) (n : ℕ) :
    semanticSearch env q n = Except.ok [] := by
  unfold semanticSearch
  cases ht : semanticTryBlock env n with
  | error e => exact keywordSearch_eq_nil env q n
  | ok results =>
    have hres : results = [] := by
      unfold semanticTryBlock at ht
      cases he : env.embedResult with
      | error e =>
        rw [he] at ht
        exact Except.noConfusion ht
      | ok emb =>
        rw [he] at ht
        exact vectorSearch_ok_nil env emb n results ht
    subst hres
    rfl

/-- C3: vectorSearch ignores its embedding argument entirely: any two
embeddings give identical output, and the output is exactly the searchNodes
result for the empty-string query with every row paired with the constant
similarity score 0.5 — when searchNodes succeeds its rows (necessarily the
empty list, because the row mapping in searchNodes throws on any nonempty
result set) come back paired with 0.5, and a searchNodes failure propagates
unchanged. -/
theorem vectorSearch_independent_of_embedding (env : Env)
    (e₁ e₂ : List ℚ) (limit : ℕ) :
    vectorSearch env e₁ limit = vectorSearch env e₂ limit ∧
    vectorSearch env e₁ limit =
      (searchNodes env "" limit).map
        (fun rows => rows.map (fun n => (n, (1:ℚ)/2))) ∧
    (∀ rows, searchNodes env "" limit = Except.ok rows →
      vectorSearch env e₁ limit =
        Except.ok (rows.map (fun n => (n, (1:ℚ)/2)))) ∧
    (∀ rows, searchNodes env "" limit = Except.ok rows → rows = []) ∧
    (searchNodes env "" limit = Except.error () →
      vectorSearch env e₁ limit = Except.error ()) := by
  refine ⟨rfl, rfl, ?_, ?_, ?_⟩
  · intro rows hrows
    unfold vectorSearch
    rw [hrows]
    rfl
  · intro rows hrows
    exact searchNodes_ok_nil env "" limit rows hrows
  · intro herr
    unfold vectorSearch
    rw [herr]
    rfl

/-- Witness for C3: over an empty store the row set is empty, the one case
in which searchNodes succeeds, and vector search returns the empty list for
any embedding. -/
theorem vectorSearch_independent_of_embedding_witness :
    vectorSearch envE [] 2 = Except.ok [] := by
  exact (vectorSearch_independent_of_embedding envE [] [1] 2).2.2.1 [] rfl

theorem findNodeIdByName_eq_empty_iff (nodes : List Node) (nm : String)
    (hids : ∀ n ∈ nodes, n.id ≠ "") :
    (findNodeIdByName nodes nm = "") ↔
      ∀ n ∈ nodes, jsToLower n.name ≠ jsToLower nm := by
  unfold findNodeIdByName
  cases hf : nodes.find? (fun n => decide (jsToLower n.name = jsToLower nm)) with
  | some n =>
    apply iff_of_false (hids n (List.mem_of_find?_eq_some hf))
    push_neg
    have hp := List.find?_some hf
    simp only [decide_eq_true_eq] at hp
    exact ⟨n, List.mem_of_find?_eq_some hf, hp⟩
  | none =>
    apply iff_of_true rfl
    intro n hn
    simpa using List.find?_eq_none.mp hf n hn

/-- C4: the edge built from a relationship candidate is excluded by the
validity filter exactly when its source name has no case-insensitive match
in the node batch, or its target name has none, or the two resolved
identifiers coincide; and the persisted batch contains only edges that pass
the filter. Node identifiers are assumed nonempty, as the pipeline
synthesizes them as fresh uuids. -/
theorem edge_dropped_iff (nodes : List Node) (ep : Episode)
    (now eid : String) (rel : RelCand)
    (hids : ∀ n ∈ nodes, n.id ≠ "") :
    ((validEdgeFilter (mkEdge nodes ep now eid rel) = false) ↔
      ((∀ n ∈ nodes, jsToLower n.name ≠ jsToLower rel.source_entity) ∨
       (∀ n ∈ nodes, jsToLower n.name ≠ jsToLower rel.target_entity) ∨
       findNodeIdByName nodes rel.source_entity =
         findNodeIdByName nodes rel.target_entity)) ∧
    (∀ eids rels e, e ∈ processEpisodeEdges nodes ep now eids rels →
      validEdgeFilter e = true) := by
  constructor
  · have hs := findNodeIdByName_eq_empty_iff nodes rel.source_entity hids
    have ht := findNodeIdByName_eq_empty_iff nodes rel.target_entity hids
    rw [← hs, ← ht]
    simp only [validEdgeFilter, mkEdge, Bool.and_eq_false_iff,
      decide_eq_false_iff_not, not_not]
    tauto
  · intro eids rels e he
    exact (List.mem_filter.mp he).2

/-- Witness for C4: a candidate whose source name matches no node in the
batch is dropped. -/
theorem edge_dropped_iff_witness :
    validEdgeFilter (mkEdge [nodeJohn] ep0 "t0" "e1" relBad) = false := by
  refine (edge_dropped_iff [nodeJohn] ep0 "t0" "e1" relBad
    (by decide)).1.mpr (Or.inl ?_)
  decide

theorem attrGet_append (l₁ l₂ : Attrs) (k : String) :
    attrGet (l₁ ++ l₂) k =
      match attrGet l₂ k with
      | some v => some v
      | none => attrGet l₁ k := by
  unfold attrGet
  rw [List.reverse_append, List.find?_append]
  cases h : l₂.reverse.find? (fun p => decide (p.1 = k)) <;> simp [h]

/-- C5 (corrected): source and target names are resolved against the node
batch by case-insensitive exact match (nonempty resolved identifier exactly
when a match exists, identifiers assumed nonempty); an absent relationship
type defaults to related_to; and when the candidate carries no confidence
field the constructed confidence attribute defaults to 0.8 unless the
extractor-supplied attribute map itself contains a confidence entry, which
is spread after the default and overrides it. -/
theorem edge_defaults_resolution (nodes : List Node) (ep : Episode)
    (now eid : String) (rel : RelCand)
    (hids : ∀ n ∈ nodes, n.id ≠ "") :
    ((mkEdge nodes ep now eid rel).source_id =
        findNodeIdByName nodes rel.source_entity) ∧
    ((mkEdge nodes ep now eid rel).target_id =
        findNodeIdByName nodes rel.target_entity) ∧
    ((mkEdge nodes ep now eid rel).source_id ≠ "" ↔
        ∃ n ∈ nodes, jsToLower n.name = jsToLower rel.source_entity) ∧
    ((mkEdge nodes ep now eid rel).target_id ≠ "" ↔
        ∃ n ∈ nodes, jsToLower n.name = jsToLower rel.target_entity) ∧
    (rel.relationship_type = none →
        (mkEdge nodes ep now eid rel).type = "related_to") ∧
    (rel.confidence = none →
        attrGet (mkEdge nodes ep now eid rel).attributes "confidence" =
          some ((attrGet rel.attributes "confidence").getD
            (AttrVal.num (4/5)))) := by
  refine ⟨rfl, rfl, ?_, ?_, ?_, ?_⟩
  · rw [show (mkEdge nodes ep now eid rel).source_id =
        findNodeIdByName nodes rel.source_entity from rfl,
      ← not_iff_not, not_ne_iff,
      findNodeIdByName_eq_empty_iff nodes rel.source_entity hids]
    push_neg
    rfl
  · rw [show (mkEdge nodes ep now eid rel).target_id =
        findNodeIdByName nodes rel.target_entity from rfl,
      ← not_iff_not, not_ne_iff,
      findNodeIdByName_eq_empty_iff nodes rel.target_entity hids]
    push_neg
    rfl
  · intro h
    simp [mkEdge, orStr, h]
  · intro h
    have hbase : attrGet
        [("source_episode", AttrVal.str ep.name),
         ("confidence", AttrVal.num (orNum rel.confidence (4/5)))]
        "confidence" = some (AttrVal.num (orNum rel.confidence (4/5))) := by
      simp [attrGet, List.find?]
    rw [show (mkEdge nodes ep now eid rel).attributes =
        [("source_episode", AttrVal.str ep.name),
         ("confidence", AttrVal.num (orNum rel.confidence (4/5)))] ++
        rel.attributes from rfl, attrGet_append]
    cases hov : attrGet rel.attributes "confidence" with
    | some v => simp
    | none => simpa [h, orNum] using hbase

/-- Witness for C5: a candidate with neither a relationship type nor a
confidence field and no extractor confidence attribute gets type related_to
and confidence 0.8. -/
theorem edge_defaults_resolution_witness :
    (mkEdge [nodeJohn] ep0 "t0" "e1" relBad).type = "related_to" ∧
    attrGet (mkEdge [nodeJohn] ep0 "t0" "e1" relBad).attributes
        "confidence" = some (AttrVal.num (4/5)) := by
  have h := edge_defaults_resolution [nodeJohn] ep0 "t0" "e1" relBad
    (by decide)
  refine ⟨h.2.2.2.2.1 rfl, ?_⟩
  have hc := h.2.2.2.2.2 rfl
  rw [hc]
  simp [relBad, attrGet]

/-- Counterexample for C5 as frozen: with the confidence field absent but an
extractor attribute named confidence present, the edge carries that
attribute value, not the 0.8 default. -/
theorem edge_confidence_override_cex :
    attrGet (mkEdge [] ep0 "t0" "e1" relOverride).attributes "confidence" =
      some (AttrVal.num (3/10)) ∧
    AttrVal.num (3/10) ≠ AttrVal.num (4/5) := by
  constructor
  · simp [mkEdge, attrGet, relOverride, ep0, List.find?]
  · intro h
    have : (3/10 : ℚ) = 4/5 := by injection h
    norm_num at this

theorem combine_bounded_sorted (s w : List SearchResult) (n : ℕ) :
    (combineSearchResults s w n).length ≤ n ∧
    (combineSearchResults s w n).Pairwise (fun a b => b.score ≤ a.score) := by
  constructor
  · simp [combineSearchResults, List.length_take]
  · unfold combineSearchResults
    apply List.Pairwise.sublist (List.take_sublist _ _)
    have hsorted := @List.sorted_mergeSort SearchResult scoreDesc
      (fun a b c hab hbc => by
        simp only [scoreDesc, decide_eq_true_eq] at *
        exact le_trans hbc hab)
      (fun a b => by
        simp only [scoreDesc, Bool.or_eq_true, decide_eq_true_eq]
        exact le_total b.score a.score)
      ((combinedMap s w).map Prod.snd)
    exact hsorted.imp (fun hab => by
      simpa [scoreDesc, decide_eq_true_eq] using hab)

/-- C6: for a limit between 1 and 100 and a supported search type, any
successful search returns at most that many results, with scores in
non-increasing order. Because the row-mapping defect in searchNodes makes
every nonempty result set throw, and both retrieval paths catch that
failure, every supported search in fact returns the empty list, which meets
the bound and the ordering; the hybrid branch is additionally covered by
the general sort-and-truncate lemma. -/
theorem search_bounded_sorted (env : Env) (q : String) (n : ℕ) (st : String)
    (h1 : 1 ≤ n) (h2 : n ≤ 100)
    (hst : st = "semantic" ∨ st = "keyword" ∨ st = "hybrid")
    (res : List SearchResult) (h : search env q n st = Except.ok res) :
    res.length ≤ n ∧ res.Pairwise (fun a b => b.score ≤ a.score) := by
  rcases hst with h3 | h3 | h3 <;> subst h3 <;> unfold search at h
  · rw [if_pos rfl, semanticSearch_eq_nil env q n] at h
    have hres : res = [] := (Except.ok.inj h).symm
    subst hres
    exact ⟨Nat.zero_le n, List.Pairwise.nil⟩
  · rw [if_neg (by decide), if_pos rfl, keywordSearch_eq_nil env q n] at h
    have hres : res = [] := (Except.ok.inj h).symm
    subst hres
    exact ⟨Nat.zero_le n, List.Pairwise.nil⟩
  · rw [if_neg (by decide), if_neg (by decide), if_pos rfl] at h
    cases hsem : semanticSearch env q n with
    | error e => rw [hsem] at h; cases h
    | ok s =>
      rw [hsem] at h
      cases hkw : keywordSearch env q n with
      | error e => rw [hkw] at h; cases h
      | ok w =>
        rw [hkw] at h
        have hres : combineSearchResults s w n = res :=
          Except.ok.inj h
        subst hres
        exact combine_bounded_sorted s w n

/-- Witness for C6: a concrete keyword search over a one-node store — the
row-mapping failure is caught, the call returns the empty list, and that
list is bounded by the limit and trivially sorted. -/
theorem search_bounded_sorted_witness :
    ([] : List SearchResult).length ≤ 10 ∧
    List.Pairwise (fun a b : SearchResult => b.score ≤ a.score)
      ([] : List SearchResult) := by
  refine search_bounded_sorted envA "Alpha" 10 "keyword" (by decide)
    (by decide) (Or.inr (Or.inl rfl)) [] ?_
  unfold search
  rw [if_neg (by decide), if_pos rfl]
  exact keywordSearch_eq_nil envA "Alpha" 10

/-- C7: semantic search never surfaces an error: any failure of the
embedding call or of the vector lookup falls back to the keyword search
result, and the keyword search itself turns an unrecoverable store failure
into an empty result list rather than an exception. -/
theorem semanticSearch_never_raises_fallback (env : Env) (q : String)
    (n : ℕ) :
    (semanticSearch env q n).isOk = true ∧
    (keywordSearch env q n).isOk = true ∧
    ((env.embedResult.isOk = false ∨ env.searchFails "" = true) →
      semanticSearch env q n = keywordSearch env q n) ∧
    (env.searchFails q = true → keywordSearch env q n = Except.ok []) := by
  have hkw : (keywordSearch env q n).isOk = true := by
    rw [keywordSearch_eq_nil env q n]
    rfl
  refine ⟨?_, hkw, ?_, ?_⟩
  · unfold semanticSearch
    cases ht : semanticTryBlock env n with
    | error e => simpa using hkw
    | ok results => simp [Except.isOk, Except.toBool]
  · intro hfail
    unfold semanticSearch semanticTryBlock
    rcases hfail with hfail | hfail
    · cases he : env.embedResult with
      | error e => rfl
      | ok emb => rw [he] at hfail; simp [Except.isOk, Except.toBool] at hfail
    · cases he : env.embedResult with
      | error e => rfl
      | ok emb =>
        dsimp only
        rw [show vectorSearch env emb n = Except.error () from by
          simp [vectorSearch, searchNodes, hfail, Except.map]]
  · intro hfail
    exact keywordSearch_eq_nil env q n

/-- Witness for C7: with the embedding call failing, semantic search returns
exactly the keyword search result. -/
theorem semanticSearch_never_raises_fallback_witness :
    semanticSearch envE "q" 3 = keywordSearch envE "q" 3 := by
  exact (semanticSearch_never_raises_fallback envE "q" 3).2.2.1 (Or.inl rfl)

/-- C8: episodes are processed one at a time in input order; when every
episode before the failing one succeeds and episode k fails, the trace shows
exactly the names of episodes 1..k in order, the failure propagates, and no
later episode is processed; a batch of all-successful episodes is processed
in full, in order. -/
theorem addEpisodes_stops_at_failure (proc : Episode → Except Unit Unit)
    (pre post : List Episode) (ep : Episode)
    (hpre : ∀ p ∈ pre, proc p = Except.ok ())
    (hep : proc ep = Except.error ()) :
    addEpisodes proc (pre ++ ep :: post) =
      (pre.map Episode.name ++ [ep.name], Except.error ()) ∧
    (∀ l, (∀ p ∈ l, proc p = Except.ok ()) →
      addEpisodes proc l = (l.map Episode.name, Except.ok ())) := by
  constructor
  · induction pre with
    | nil => simp [addEpisodes, hep]
    | cons p pre ih =>
      have hp : proc p = Except.ok () := hpre p (List.mem_cons_self _ _)
      have hrest := ih (fun x hx => hpre x (List.mem_cons_of_mem _ hx))
      simp [addEpisodes, hp, hrest]
  · intro l hl
    induction l with
    | nil => rfl
    | cons p l ih =>
      have hp : proc p = Except.ok () := hl p (List.mem_cons_self _ _)
      have hrest := ih (fun x hx => hl x (List.mem_cons_of_mem _ hx))
      simp [addEpisodes, hp, hrest]

/-- Witness for C8: with a good episode, then a failing one, then another
good one, processing starts the first two in order, fails, and never reaches
the third. -/
theorem addEpisodes_stops_at_failure_witness :
    addEpisodes proc0 ([epGood] ++ epBad :: [epGood]) =
      ([epGood].map Episode.name ++ [epBad.name], Except.error ()) := by
  refine (addEpisodes_stops_at_failure proc0 [epGood] [epGood] epBad
    ?_ ?_).1
  · intro p hp
    rw [List.mem_singleton] at hp
    subst hp
    rfl
  · rfl

/-- C9: healthCheck never surfaces an error; when the database probe
succeeds and the language-model call fails, the result reports database
true and llm false, and the embedding probe still runs, its boolean
reported unchanged. -/
theorem healthCheck_fault_isolated (env : Env) :
    (healthCheck env).isOk = true ∧
    (∀ b, testConnection env = Except.ok b →
      env.dbConnectable = true → env.llmResult.isOk = false →
      healthCheck env = Except.ok ⟨true, false, b⟩) := by
  constructor
  · unfold healthCheck dbHealthCheck testConnection
    cases env.llmResult <;> simp [Except.isOk, Except.toBool]
  · intro b hb hdb hllm
    unfold healthCheck dbHealthCheck
    rw [hdb, hb]
    cases hl : env.llmResult with
    | error e => rfl
    | ok s => rw [hl] at hllm; simp [Except.isOk, Except.toBool] at hllm

/-- Witness for C9: store reachable, language model failing, embedding
succeeding, gives database true, llm false, embedding true. -/
theorem healthCheck_fault_isolated_witness :
    healthCheck envH = Except.ok ⟨true, false, true⟩ := by
  exact (healthCheck_fault_isolated envH).2 true rfl rfl rfl

/-- C10: a search_type outside the three supported values and a num_results
that is not an integer in the range 1 to 100 are each rejected by the input
schema, in which case the handler returns an error and never invokes the
search pipeline; the pipeline itself also throws on an unsupported search
type before consulting any collaborator. -/
theorem search_input_rejected (raw : RawSearchInput) :
    (∀ st, raw.search_type = some st → st ∉ validSearchTypes →
      parseSearchInput raw = Except.error () ∧
      ∀ env, handleSearchTool env raw = (none, Except.error ())) ∧
    (∀ nq, raw.num_results = some nq →
      ¬(nq.den = 1 ∧ 1 ≤ nq ∧ nq ≤ 100) →
      parseSearchInput raw = Except.error () ∧
      ∀ env, handleSearchTool env raw = (none, Except.error ())) ∧
    (∀ env q m st, st ∉ validSearchTypes →
      search env q m st = Except.error ()) := by
  refine ⟨?_, ?_, ?_⟩
  · intro st hst hmem
    have hp : parseSearchInput raw = Except.error () := by
      unfold parseSearchInput
      cases hq : raw.query with
      | none => rfl
      | some q =>
        cases hn : raw.num_results with
        | none => rw [hst]; simp [hmem]
        | some nq =>
          rw [hst]
          by_cases hc : nq.den = 1 ∧ 1 ≤ nq ∧ nq ≤ 100
          · simp [hc, hmem]
          · simp [hc]
    exact ⟨hp, fun env => by unfold handleSearchTool; rw [hp]⟩
  · intro nq hn hbad
    have hp : parseSearchInput raw = Except.error () := by
      unfold parseSearchInput
      cases hq : raw.query with
      | none => rfl
      | some q => rw [hn]; simp [hbad]
    exact ⟨hp, fun env => by unfold handleSearchTool; rw [hp]⟩
  · intro env q m st hmem
    have h1 : st ≠ "semantic" := by
      rintro rfl; exact hmem (by simp [validSearchTypes])
    have h2 : st ≠ "keyword" := by
      rintro rfl; exact hmem (by simp [validSearchTypes])
    have h3 : st ≠ "hybrid" := by
      rintro rfl; exact hmem (by simp [validSearchTypes])
    unfold search
    rw [if_neg h1, if_neg h2, if_neg h3]

/-- Witness for C10: an out-of-range result count of 200 is rejected by the
schema and the pipeline is never invoked. -/
theorem search_input_rejected_witness :
    parseSearchInput rawBad = Except.error () ∧
    handleSearchTool envA rawBad = (none, Except.error ()) := by
  have h := (search_input_rejected rawBad).2.1 200 rfl (by
    intro hc
    have := hc.2.2
    norm_num at this)
  exact ⟨h.1, h.2 envA⟩

end Graphiti
